import Mathlib

/-!
Verification development for the drive-manager repository.

This file shallowly embeds the tiering engine of the repository
(`src/deepseek/tiering_manager.rs`, `src/deepseek/drive_manager.rs`,
`src/deepseek/file_metadata.rs`; the sibling variant
`src/drive-manager-rust.rs` is consulted where a claim cites it) and
settles the frozen claims C1-C10 against it.

Modelling conventions:
* Paths are lists of components (`PathKey`); the metadata store
  (a `shelve::Shelf` keyed by relative path) is an association list.
* Instants (`SystemTime`) are integers counting seconds since the epoch.
* The external environment (capacity measurement via `fs::metadata`,
  the rsync child process outcome, directory contents) is passed in as
  explicit parameters, matching the points where the Rust code performs
  I/O.
* The Rust struct `FileMetadata` is declared with four fields, yet
  `move_file` writes a fifth field `last_tier_move`; the embedding
  carries that field (absent = the sentinel "never"), since both the
  usage site and the sqlite variant's schema include it.
-/

namespace DM

/-- Components of a path relative to the merged mount root, e.g.
`["hot", "a.bin"]` stands for `hot/a.bin` under `/mnt/merged`. -/
abbrev PathKey := List String

/-- `FileMetadata` (src/deepseek/file_metadata.rs:12-17), plus the
`last_tier_move` field written at tiering_manager.rs:155. -/
structure FileMetadata where
  last_access_time : Int
  access_count : Nat
  file_size : Nat
  tier : String
  last_tier_move : Option Int := none
deriving Repr, DecidableEq

instance : Inhabited FileMetadata := ⟨⟨0, 0, 0, "", none⟩⟩

/-- `FileMoveInfo` (src/deepseek/file_metadata.rs:4-9): one move task. -/
structure FileMoveInfo where
  src : PathKey
  source_tier : String
  target_tier : String
  retries : Nat
deriving Repr, DecidableEq

/-- The metadata store: an association list from relative path to record,
embedding the `shelve::Shelf` key-value store. -/
abbrev Store := List (PathKey × FileMetadata)

/-- `db.get(key)` on the store. -/
def dbGet (db : Store) (k : PathKey) : Option FileMetadata :=
  match db with
  | [] => none
  | e :: es => if e.1 = k then some e.2 else dbGet es k

/-- `db.insert(key, value)`: replace the record under an existing key,
otherwise append a fresh entry. -/
def dbInsert (db : Store) (k : PathKey) (v : FileMetadata) : Store :=
  match db with
  | [] => [(k, v)]
  | e :: es => if e.1 = k then (k, v) :: es else e :: dbInsert es k v

/-- `db.remove(key)`. -/
def dbRemove (db : Store) (k : PathKey) : Store :=
  db.filter (fun e => e.1 != k)

/-- `db.contains_key(key)`. -/
def dbHasKey (db : Store) (k : PathKey) : Bool :=
  db.any (fun e => e.1 == k)

/-- The tier iteration order `["hot", "warm", "cold"]` used by every loop
in tiering_manager.rs. -/
def tiersL : List String := ["hot", "warm", "cold"]

/-- The configuration keys the tiering engine reads
(`access_time_threshold`, `access_count_threshold`). -/
structure Config where
  access_time_threshold : Nat
  access_count_threshold : Nat
deriving Repr, DecidableEq

/-- `queue_file_move` (tiering_manager.rs:133-140): build a task with
`retries = 0` for the move queue. -/
def queueFileMove (file_path : PathKey) (source_tier target_tier : String) :
    FileMoveInfo :=
  { src := file_path, source_tier := source_tier, target_tier := target_tier,
    retries := 0 }

/-- The promotion condition of `move_files_based_on_rules`
(tiering_manager.rs:127): `access_count >= access_count_threshold`,
`last_access_time > now - access_time_threshold` (a strict comparison),
and `tier != "hot"`. -/
def promoteEligible (c : Config) (now : Int) (fi : FileMetadata) : Bool :=
  (c.access_count_threshold ≤ fi.access_count) &&
  (now - (c.access_time_threshold : Int) < fi.last_access_time) &&
  (fi.tier != "hot")

/-- `move_files_based_on_rules` (tiering_manager.rs:123-131): walk the
store and enqueue a promotion task to `"hot"` for every eligible record. -/
def moveFilesBasedOnRules (c : Config) (now : Int) (db : Store) :
    List FileMoveInfo :=
  db.filterMap (fun e =>
    if promoteEligible c now e.2 then some (queueFileMove e.1 e.2.tier "hot")
    else none)

/-- The demotion target of `move_files_down` (tiering_manager.rs:116):
`hot` goes to `warm`, everything else goes to `cold`. -/
def demotionTarget (source_tier : String) : String :=
  if source_tier == "hot" then "warm" else "cold"

/-- `move_files_down` (tiering_manager.rs:115-121): filter the store to
the records of `source_tier`, take the first 10 in iteration order, and
enqueue a demotion task for each. -/
def moveFilesDown (db : Store) (source_tier : String) : List FileMoveInfo :=
  ((db.filter (fun e => e.2.tier == source_tier)).take 10).map
    (fun e => queueFileMove e.1 source_tier (demotionTarget source_tier))

/-- `check_tier_capacities` (tiering_manager.rs:102-113): for each tier in
order, call `move_files_down` when its usage exceeds the threshold.  The
capacity measurement is I/O, so the over-threshold verdict is a
parameter `over`. -/
def checkTierCapacities (over : String → Bool) (db : Store) :
    List FileMoveInfo :=
  tiersL.flatMap (fun tier => if over tier then moveFilesDown db tier else [])

/-- The tasks one `perform_tiering_check` pass (tiering_manager.rs:63-69)
enqueues onto the move queue, given the store as it stands after
Phase A: first the demotions of `check_tier_capacities`, then the
promotions of `move_files_based_on_rules`. -/
def scanEnqueued (c : Config) (now : Int) (over : String → Bool)
    (db : Store) : List FileMoveInfo :=
  checkTierCapacities over db ++ moveFilesBasedOnRules c now db

/-- The retry bound: the literal `3` of tiering_manager.rs:53. -/
def MAX_RETRIES : Nat := 3

/-- One iteration of `retry_loop` (tiering_manager.rs:51-61) on a task
taken from the retry queue: forward with `retries + 1` when
`retries < 3`, otherwise log a permanent failure and drop (`none`). -/
def retryStep (t : FileMoveInfo) : Option FileMoveInfo :=
  if t.retries < 3 then some { t with retries := t.retries + 1 } else none

/-- Tasks that can ever sit on the move queue: either enqueued by a scan
pass, or forwarded by the retry loop from a task that was itself on the
move queue (movers forward failed tasks unchanged to the retry queue,
tiering_manager.rs:161). -/
inductive OnMoveQueue (c : Config) (now : Int) (over : String → Bool)
    (db : Store) : FileMoveInfo → Prop
  | fromScan (t : FileMoveInfo) (h : t ∈ scanEnqueued c now over db) :
      OnMoveQueue c now over db t
  | fromRetry (t t' : FileMoveInfo) (h : OnMoveQueue c now over db t)
      (hr : retryStep t = some t') : OnMoveQueue c now over db t'

/-- Number of tasks in a list whose `src` is the given path. -/
def pathCount (p : PathKey) (ts : List FileMoveInfo) : Nat :=
  ts.countP (fun t => t.src == p)

/-- The merged mount root `/mnt/merged` (`MERGERFS_MOUNT_PATH`). -/
def mergedRoot : PathKey := ["mnt", "merged"]

/-- `Path::strip_prefix(root)` on component lists: remove the leading
components `root` from `p`, failing when `root` does not lead `p`. -/
def stripLead : PathKey → PathKey → Option PathKey
  | [], p => some p
  | _ :: _, [] => none
  | a :: as, b :: bs => if a == b then stripLead as bs else none

/-- `DriveManager::rsync` (src/deepseek/drive_manager.rs:47-61), reduced
to its observable effect: the pair (reported success, whether a child
process was spawned).  With `dryrun` set it reports success without
spawning; otherwise it spawns and reports the child's outcome
`spawnOk`. -/
def rsyncRun (dryrun : Bool) (spawnOk : Bool) : Bool × Bool :=
  if dryrun then (true, false) else (spawnOk, true)

/-- The observable result of one `move_file` call: the store afterwards,
the task forwarded to the retry queue (if any), and whether a child
process was spawned. -/
structure MoveOutcome where
  db : Store
  retry : Option FileMoveInfo
  spawned : Bool
deriving Repr, DecidableEq

/-- `move_file` (tiering_manager.rs:142-163).  The relative path is
`src` stripped of `<root>/<source_tier>` (rs:146-148; `none` models the
`unwrap` panic when the strip fails).  On copy success the record found
under that relative path - if any - is reinserted under the same key
with `tier := target_tier` and `last_tier_move := now` (rs:153-157),
then the store is flushed; on failure the task is forwarded unchanged to
the retry queue (rs:161). -/
def moveFile (dryrun spawnOk : Bool) (now : Int) (db : Store)
    (t : FileMoveInfo) : Option MoveOutcome :=
  match stripLead (mergedRoot ++ [t.source_tier]) t.src with
  | none => none
  | some rel =>
    let r := rsyncRun dryrun spawnOk
    if r.1 then
      match dbGet db rel with
      | some fi =>
          some ⟨dbInsert db rel
                  { fi with tier := t.target_tier, last_tier_move := some now },
                none, r.2⟩
      | none => some ⟨db, none, r.2⟩
    else
      some ⟨db, some t, r.2⟩

/-- One file observation of Phase A, `update_file_metadata`
(tiering_manager.rs:71-100): under key `<tier>/<comps>` with observed
access time `atime` and size `size`, an existing record gets
`last_access_time := atime` (the observed value), `access_count + 1`,
and the observed size and tier; a missing record is inserted with
`access_count = 1`. -/
def updateFileMetadataEntry (db : Store) (tier : String) (comps : PathKey)
    (atime : Int) (size : Nat) : Store :=
  match dbGet db (tier :: comps) with
  | some fi =>
      dbInsert db (tier :: comps)
        { fi with last_access_time := atime,
                  access_count := fi.access_count + 1,
                  file_size := size, tier := tier }
  | none =>
      dbInsert db (tier :: comps)
        { last_access_time := atime, access_count := 1, file_size := size,
          tier := tier, last_tier_move := none }

/-- A regular file on disk under the union root: its tier root, its path
components below that root, and its observed stat data. -/
structure FSFile where
  tier : String
  comps : List String
  atime : Int
  size : Nat
deriving Repr, DecidableEq

/-- The store key of a file: tier root followed by the components. -/
def FSFile.key (f : FSFile) : PathKey := f.tier :: f.comps

/-- `keyUnder k p`: the path `k` is `p` itself or an ancestor of `p`
when both are read as component lists. -/
def keyUnder : PathKey → PathKey → Bool
  | [], _ => true
  | _ :: _, [] => false
  | a :: as, b :: bs => a == b && keyUnder as bs

/-- `Path::new(full_path).exists()` (tiering_manager.rs:195) over a
filesystem listing its regular files: true when `k` is a file or a
directory holding one. -/
def fsExists (fs : List FSFile) (k : PathKey) : Bool :=
  fs.any (fun f => keyUnder k f.key)

/-- The forward half of `validate_and_update_database` on one observed
file (tiering_manager.rs:174-188): correct a record whose stored tier
disagrees, insert a fresh record with `access_count = 1` when absent. -/
def reconcileForwardOne (db : Store) (f : FSFile) : Store :=
  match dbGet db f.key with
  | some fi =>
      if fi.tier != f.tier then dbInsert db f.key { fi with tier := f.tier }
      else db
  | none =>
      dbInsert db f.key
        { last_access_time := f.atime, access_count := 1, file_size := f.size,
          tier := f.tier, last_tier_move := none }

/-- The files the forward sweep observes: for each tier in order,
`fs::read_dir` of the tier root (tiering_manager.rs:169) - which is not
recursive, so only files sitting directly at the root (one component)
are seen. -/
def forwardFiles (fs : List FSFile) : List FSFile :=
  tiersL.flatMap (fun tier =>
    fs.filter (fun f => f.tier == tier && f.comps.length == 1))

/-- One full `validate_and_update_database` pass
(tiering_manager.rs:165-205) over a quiet filesystem `fs`: the forward
sweep over the observed files, then removal of every record whose full
path does not exist on disk. -/
def reconcilerPass (fs : List FSFile) (db : Store) : Store :=
  ((forwardFiles fs).foldl reconcileForwardOne db).filter
    (fun e => fsExists fs e.1)

/-! ### Store lemmas -/

theorem dbGet_insert_self (db : Store) (k : PathKey) (v : FileMetadata) :
    dbGet (dbInsert db k v) k = some v := by
  induction db with
  | nil => simp [dbInsert, dbGet]
  | cons e es ih =>
    by_cases h : e.1 = k
    · simp [dbInsert, dbGet, h]
    · simp [dbInsert, dbGet, h, ih]

theorem dbGet_insert_ne (db : Store) (k k' : PathKey) (v : FileMetadata)
    (h : k' ≠ k) : dbGet (dbInsert db k v) k' = dbGet db k' := by
  have hkk : ¬ k = k' := fun hk => h hk.symm
  induction db with
  | nil => simp [dbInsert, dbGet, hkk]
  | cons e es ih =>
    by_cases he : e.1 = k
    · simp [dbInsert, dbGet, he, hkk]
    · simp [dbInsert, dbGet, he, ih]

theorem dbHasKey_true_iff (db : Store) (k : PathKey) :
    dbHasKey db k = true ↔ ∃ e ∈ db, e.1 = k := by
  simp [dbHasKey, List.any_eq_true, beq_iff_eq]

theorem dbHasKey_of_get (db : Store) (k : PathKey) (fi : FileMetadata)
    (h : dbGet db k = some fi) : dbHasKey db k = true := by
  induction db with
  | nil => simp [dbGet] at h
  | cons e es ih =>
    by_cases he : e.1 = k
    · simp [dbHasKey, he]
    · simp only [dbGet, he, if_false] at h
      have := ih h
      simp [dbHasKey] at this ⊢
      exact Or.inr this

theorem dbHasKey_insert_iff (db : Store) (k k' : PathKey) (v : FileMetadata) :
    dbHasKey (dbInsert db k v) k' = true ↔
      (dbHasKey db k' = true ∨ k' = k) := by
  have hsymm : k = k' ↔ k' = k := eq_comm
  induction db with
  | nil =>
    simp [dbInsert, dbHasKey, beq_iff_eq]
    tauto
  | cons e es ih =>
    obtain ⟨e1, e2⟩ := e
    by_cases he : e1 = k
    · subst he
      simp [dbInsert, dbHasKey, beq_iff_eq]
      tauto
    · simp only [dbInsert, he, if_false]
      simp [dbHasKey, beq_iff_eq] at ih ⊢
      tauto

theorem dbHasKey_filter_iff (db : Store) (q : PathKey → Bool) (k : PathKey) :
    dbHasKey (db.filter (fun e => q e.1)) k = true ↔
      (dbHasKey db k = true ∧ q k = true) := by
  simp only [dbHasKey_true_iff, List.mem_filter]
  constructor
  · rintro ⟨e, ⟨he, hq⟩, hk⟩
    exact ⟨⟨e, he, hk⟩, hk ▸ hq⟩
  · rintro ⟨⟨e, he, hk⟩, hq⟩
    exact ⟨e, ⟨he, hk ▸ hq⟩, hk⟩

theorem keyUnder_refl (k : PathKey) : keyUnder k k = true := by
  induction k with
  | nil => rfl
  | cons a as ih => simp [keyUnder, ih]

/-! ### Policy lemmas -/

theorem mem_moveFilesDown (db : Store) (tier : String) (t : FileMoveInfo)
    (h : t ∈ moveFilesDown db tier) :
    ∃ e ∈ db, t = queueFileMove e.1 tier (demotionTarget tier) := by
  unfold moveFilesDown at h
  obtain ⟨e, he, rfl⟩ := List.mem_map.1 h
  exact ⟨e, List.mem_of_mem_filter (List.mem_of_mem_take he), rfl⟩

theorem mem_moveFilesBasedOnRules (c : Config) (now : Int) (db : Store)
    (t : FileMoveInfo) (h : t ∈ moveFilesBasedOnRules c now db) :
    ∃ e ∈ db, promoteEligible c now e.2 = true ∧
      t = queueFileMove e.1 e.2.tier "hot" := by
  unfold moveFilesBasedOnRules at h
  obtain ⟨e, he, hsome⟩ := List.mem_filterMap.1 h
  by_cases hp : promoteEligible c now e.2 = true
  · rw [if_pos hp] at hsome
    exact ⟨e, he, hp, (Option.some_inj.1 hsome).symm⟩
  · rw [if_neg hp] at hsome
    cases hsome

theorem scanEnqueued_retries (c : Config) (now : Int) (over : String → Bool)
    (db : Store) (t : FileMoveInfo) (h : t ∈ scanEnqueued c now over db) :
    t.retries = 0 := by
  unfold scanEnqueued at h
  rcases List.mem_append.1 h with h | h
  · unfold checkTierCapacities at h
    obtain ⟨tier, _, hin⟩ := List.mem_flatMap.1 h
    by_cases ho : over tier = true
    · rw [if_pos ho] at hin
      obtain ⟨e, _, rfl⟩ := mem_moveFilesDown _ _ _ hin
      rfl
    · rw [if_neg ho] at hin
      cases hin
  · obtain ⟨e, _, _, rfl⟩ := mem_moveFilesBasedOnRules _ _ _ _ h
    rfl

theorem pathCount_rules_le (c : Config) (now : Int) (db : Store)
    (p : PathKey) :
    pathCount p (moveFilesBasedOnRules c now db) ≤
      db.countP (fun e => e.1 == p) := by
  induction db with
  | nil => simp [moveFilesBasedOnRules, pathCount]
  | cons e es ih =>
    simp only [moveFilesBasedOnRules, List.filterMap_cons] at ih ⊢
    by_cases hp : promoteEligible c now e.2 = true
    · rw [if_pos hp]
      simp only [pathCount, List.countP_cons, queueFileMove] at ih ⊢
      omega
    · rw [if_neg hp]
      simp only [List.countP_cons]
      omega

theorem pathCount_down_le (db : Store) (tier : String) (p : PathKey) :
    pathCount p (moveFilesDown db tier) ≤
      db.countP (fun e => e.1 == p) := by
  unfold moveFilesDown pathCount
  rw [List.countP_map]
  have h1 : List.countP
      ((fun t => t.src == p) ∘
        fun e => queueFileMove e.1 tier (demotionTarget tier))
      ((db.filter (fun e => e.2.tier == tier)).take 10) =
      List.countP (fun e : PathKey × FileMetadata => e.1 == p)
      ((db.filter (fun e => e.2.tier == tier)).take 10) := rfl
  rw [h1]
  exact le_trans
    (List.Sublist.countP_le _ (List.take_sublist _ _))
    (List.Sublist.countP_le _ (List.filter_sublist _))

theorem countP_key_le_one (db : Store) (p : PathKey)
    (h : (db.map Prod.fst).Nodup) :
    db.countP (fun e => e.1 == p) ≤ 1 := by
  induction db with
  | nil => simp
  | cons e es ih =>
    rw [List.map_cons, List.nodup_cons] at h
    rw [List.countP_cons]
    by_cases hp : e.1 = p
    · have hz : es.countP (fun e' => e'.1 == p) = 0 := by
        rw [List.countP_eq_zero]
        intro a ha hap
        rw [beq_iff_eq] at hap
        have hmem : a.1 ∈ es.map Prod.fst := List.mem_map_of_mem Prod.fst ha
        rw [hap, ← hp] at hmem
        exact h.1 hmem
      simp [hz, hp]
    · have hf : (e.1 == p) = false := by simp [hp]
      simp only [hf, if_false, Nat.add_zero]
      exact ih h.2

/-! ### Concrete stores used by counterexamples and witnesses -/

/-- Config with `access_time_threshold = 3600`, `access_count_threshold = 3`. -/
def exC1cfg : Config := ⟨3600, 3⟩

/-- A warm record whose age at `now = 10000` is exactly the threshold. -/
def exC1rec : FileMetadata := ⟨6400, 5, 10, "warm", none⟩

def exC1db : Store := [(["warm", "a"], exC1rec)]

/-- Config with `access_time_threshold = 1000`, `access_count_threshold = 1`. -/
def exC4cfg : Config := ⟨1000, 1⟩

/-- One warm record that is both demotion- and promotion-eligible. -/
def exC4db : Store := [(["warm", "a"], ⟨100, 5, 10, "warm", none⟩)]

/-- One cold record. -/
def exC7db : Store := [(["cold", "x"], ⟨0, 1, 1, "cold", none⟩)]

/-- Eleven hot records; the eleventh, `hot/old`, is strictly the oldest. -/
def exC2db : Store :=
  [(["hot", "f0"], ⟨100, 1, 1, "hot", none⟩),
   (["hot", "f1"], ⟨100, 1, 1, "hot", none⟩),
   (["hot", "f2"], ⟨100, 1, 1, "hot", none⟩),
   (["hot", "f3"], ⟨100, 1, 1, "hot", none⟩),
   (["hot", "f4"], ⟨100, 1, 1, "hot", none⟩),
   (["hot", "f5"], ⟨100, 1, 1, "hot", none⟩),
   (["hot", "f6"], ⟨100, 1, 1, "hot", none⟩),
   (["hot", "f7"], ⟨100, 1, 1, "hot", none⟩),
   (["hot", "f8"], ⟨100, 1, 1, "hot", none⟩),
   (["hot", "f9"], ⟨100, 1, 1, "hot", none⟩),
   (["hot", "old"], ⟨0, 1, 1, "hot", none⟩)]

/-! ### Claim C1 - promotion policy -/

/-- C1 counterexample: a warm record with `access_count` at the
threshold and `last_access_time` exactly `access_time_threshold` seconds
before now (the inclusive boundary of the claim) is NOT enqueued by the
pass: `move_files_based_on_rules` compares with a strict `>`, so at the
boundary nothing is enqueued. -/
theorem C1_counterexample :
    (10000 : Int) - exC1rec.last_access_time =
      (exC1cfg.access_time_threshold : Int) ∧
    exC1cfg.access_count_threshold ≤ exC1rec.access_count ∧
    exC1rec.tier ≠ "hot" ∧
    moveFilesBasedOnRules exC1cfg 10000 exC1db = [] ∧
    scanEnqueued exC1cfg 10000 (fun _ => false) exC1db = [] := by
  decide

/-- C1 (amended): for every record in the store with `tier ≠ hot`,
`access_count ≥ access_count_threshold`, and `last_access_time` STRICTLY
within `access_time_threshold` seconds of now (exclusive at the
boundary: `now - access_time_threshold < last_access_time`), a single
Scan pass enqueues a promotion `MoveTask` with target tier `hot` and
source path equal to the record's key. -/
theorem C1_promotion_policy (c : Config) (now : Int) (over : String → Bool)
    (db : Store) (k : PathKey) (fi : FileMetadata)
    (hmem : (k, fi) ∈ db) (htier : fi.tier ≠ "hot")
    (hcount : c.access_count_threshold ≤ fi.access_count)
    (htime : now - (c.access_time_threshold : Int) < fi.last_access_time) :
    queueFileMove k fi.tier "hot" ∈ moveFilesBasedOnRules c now db ∧
    queueFileMove k fi.tier "hot" ∈ scanEnqueued c now over db ∧
    (queueFileMove k fi.tier "hot").src = k ∧
    (queueFileMove k fi.tier "hot").target_tier = "hot" ∧
    (queueFileMove k fi.tier "hot").retries = 0 := by
  have helig : promoteEligible c now fi = true := by
    simp [promoteEligible, hcount, htime, htier]
  have h1 : queueFileMove k fi.tier "hot" ∈ moveFilesBasedOnRules c now db := by
    refine List.mem_filterMap.2 ⟨(k, fi), hmem, ?_⟩
    rw [if_pos helig]
  exact ⟨h1, List.mem_append.2 (Or.inr h1), rfl, rfl, rfl⟩

/-- C1 witness: the amended theorem applied at `now = 9999`, one second
inside the boundary, for the concrete warm record. -/
theorem C1_promotion_policy_witness :
    queueFileMove ["warm", "a"] "warm" "hot" ∈
      moveFilesBasedOnRules exC1cfg 9999 exC1db ∧
    queueFileMove ["warm", "a"] "warm" "hot" ∈
      scanEnqueued exC1cfg 9999 (fun _ => false) exC1db := by
  have h := C1_promotion_policy exC1cfg 9999 (fun _ => false) exC1db
    ["warm", "a"] exC1rec (by decide) (by decide) (by decide) (by decide)
  exact ⟨h.1, h.2.1⟩

/-! ### Claim C2 - demotion selection -/

/-- C2 counterexample: with eleven hot records whose iteration order
puts the unique oldest file (`hot/old`, `last_access_time = 0`; all
others have `last_access_time = 100`) last, `move_files_down` enqueues
exactly 10 tasks and the oldest file is not among them: the code takes
the first 10 records in store iteration order and never sorts by
`last_access_time`. -/
theorem C2_counterexample :
    (exC2db.all (fun e =>
       e.1 == ["hot", "old"] || decide (0 < e.2.last_access_time))) = true ∧
    dbGet exC2db ["hot", "old"] = some ⟨0, 1, 1, "hot", none⟩ ∧
    (moveFilesDown exC2db "hot").length = 10 ∧
    (moveFilesDown exC2db "hot").all
      (fun t => t.src != ["hot", "old"]) = true := by
  decide

/-- C2 (amended): when a tier's usage exceeds the capacity threshold,
Phase B enqueues demotion tasks for at most 10 files of that tier,
chosen as the FIRST 10 records of that tier in store iteration order
(no sorting by `last_access_time`, no tie-breaking); each task carries
the tier's demotion target and `retries = 0`. -/
theorem C2_demotion_selection (db : Store) (tier : String)
    (over : String → Bool) (hover : over tier = true)
    (hmem : tier ∈ tiersL) :
    ((moveFilesDown db tier).map (fun t => t.src) =
      ((db.filter (fun e => e.2.tier == tier)).map Prod.fst).take 10) ∧
    (moveFilesDown db tier).length ≤ 10 ∧
    (∀ t ∈ moveFilesDown db tier,
      t.source_tier = tier ∧ t.target_tier = demotionTarget tier ∧
      t.retries = 0) ∧
    (∀ t ∈ moveFilesDown db tier, t ∈ checkTierCapacities over db) := by
  refine ⟨?_, ?_, ?_, ?_⟩
  · unfold moveFilesDown
    rw [List.map_map, List.map_take]
    congr 1
  · unfold moveFilesDown
    rw [List.length_map, List.length_take]
    exact min_le_left _ _
  · intro t ht
    obtain ⟨e, _, rfl⟩ := mem_moveFilesDown _ _ _ ht
    exact ⟨rfl, rfl, rfl⟩
  · intro t ht
    refine List.mem_flatMap.2 ⟨tier, hmem, ?_⟩
    rw [if_pos hover]
    exact ht

/-- C2 witness: the amended theorem applied to the eleven-record hot
store, with the bound and field facts instantiated at the first task. -/
theorem C2_demotion_selection_witness :
    ((moveFilesDown exC2db "hot").map (fun t => t.src) =
      [["hot", "f0"], ["hot", "f1"], ["hot", "f2"], ["hot", "f3"],
       ["hot", "f4"], ["hot", "f5"], ["hot", "f6"], ["hot", "f7"],
       ["hot", "f8"], ["hot", "f9"]]) ∧
    (moveFilesDown exC2db "hot").length ≤ 10 ∧
    queueFileMove ["hot", "f0"] "hot" "warm" ∈
      checkTierCapacities (fun t => t == "hot") exC2db := by
  obtain ⟨h1, h2, _, h4⟩ := C2_demotion_selection exC2db "hot"
    (fun t => t == "hot") (by decide) (by decide)
  exact ⟨h1.trans (by decide), h2, h4 _ (by decide)⟩

/-! ### Claim C3 - retry bound -/

/-- C3: the retry loop forwards a task with `retries` incremented by 1
exactly when `retries < 3`, drops it otherwise, and consequently every
task that can ever sit on the move queue (scan-enqueued, or forwarded by
retry from a move-queue task) has `retries ≤ MAX_RETRIES = 3`, so no
task with `retries > MAX_RETRIES` is ever delivered to a mover. -/
theorem C3_retry_bound (c : Config) (now : Int) (over : String → Bool)
    (db : Store) :
    (∀ t : FileMoveInfo, t.retries < 3 →
       retryStep t = some { t with retries := t.retries + 1 }) ∧
    (∀ t : FileMoveInfo, 3 ≤ t.retries → retryStep t = none) ∧
    (∀ t : FileMoveInfo, OnMoveQueue c now over db t →
       t.retries ≤ MAX_RETRIES) := by
  refine ⟨?_, ?_, ?_⟩
  · intro t ht
    simp [retryStep, ht]
  · intro t ht
    simp [retryStep, Nat.not_lt.2 ht]
  · intro t h
    induction h with
    | fromScan t h =>
      rw [scanEnqueued_retries c now over db t h]
      decide
    | fromRetry t t' h hr ih =>
      unfold retryStep at hr
      by_cases hlt : t.retries < 3
      · rw [if_pos hlt] at hr
        cases hr
        simp only [MAX_RETRIES]
        omega
      · rw [if_neg hlt] at hr
        cases hr

/-- C3 witness: a scan-enqueued demotion task satisfies the bound, and
the retry loop forwards a once-retried task with the counter at 2. -/
theorem C3_retry_bound_witness :
    ({ src := ["warm", "a"], source_tier := "warm", target_tier := "cold",
       retries := 0 } : FileMoveInfo).retries ≤ MAX_RETRIES ∧
    retryStep ⟨["warm", "a"], "warm", "cold", 1⟩ =
      some ⟨["warm", "a"], "warm", "cold", 2⟩ := by
  constructor
  · exact (C3_retry_bound exC4cfg 100 (fun t => t == "warm") exC4db).2.2 _
      (OnMoveQueue.fromScan _ (by decide))
  · exact (C3_retry_bound exC4cfg 100 (fun t => t == "warm") exC4db).1
      ⟨["warm", "a"], "warm", "cold", 1⟩ (by decide)

/-! ### Claim C4 - in-flight uniqueness -/

/-- C4 counterexample: there is no in-flight set anywhere in the code,
and a single scan pass over a store holding one warm record that is both
demotion-eligible (warm over threshold) and promotion-eligible enqueues
TWO tasks for the same path, so the combined number of queued tasks for
that path reaches 2 > 1. -/
theorem C4_counterexample :
    pathCount ["warm", "a"]
      (scanEnqueued exC4cfg 100 (fun t => t == "warm") exC4db) = 2 := by
  decide

/-- C4 (amended): within a single phase each path is enqueued at most
once, provided the store's keys are distinct: Phase C enqueues at most
one promotion task per path, and one `move_files_down` call enqueues at
most one demotion task per path.  (No mutex-guarded in-flight set
exists; across the two phases of one pass the combined count for a path
can reach 2, as the counterexample shows.) -/
theorem C4_per_phase_uniqueness (c : Config) (now : Int) (db : Store)
    (p : PathKey) (tier : String)
    (hnodup : (db.map Prod.fst).Nodup) :
    pathCount p (moveFilesBasedOnRules c now db) ≤ 1 ∧
    pathCount p (moveFilesDown db tier) ≤ 1 := by
  exact ⟨le_trans (pathCount_rules_le c now db p)
           (countP_key_le_one db p hnodup),
         le_trans (pathCount_down_le db tier p)
           (countP_key_le_one db p hnodup)⟩

/-- C4 witness: the per-phase bounds at the concrete one-record store. -/
theorem C4_per_phase_uniqueness_witness :
    pathCount ["warm", "a"] (moveFilesBasedOnRules exC4cfg 100 exC4db) ≤ 1 ∧
    pathCount ["warm", "a"] (moveFilesDown exC4db "warm") ≤ 1 := by
  exact C4_per_phase_uniqueness exC4cfg 100 exC4db ["warm", "a"] "warm"
    (by decide)

/-! ### Claim C7 - cold-tier demotion -/

/-- C7 counterexample: with the cold tier over its threshold and one
cold record, Phase B enqueues a cold-to-cold `MoveTask` - the code
computes target `cold` for source `cold` and enqueues unconditionally;
nothing is skipped. -/
theorem C7_counterexample :
    checkTierCapacities (fun t => t == "cold") exC7db =
      [⟨["cold", "x"], "cold", "cold", 0⟩] := by
  decide

/-- C7 (amended): when the cold tier exceeds its capacity threshold,
Phase B enqueues cold-to-cold demotion tasks for the first
`min 10 (number of cold records)` cold records; every such task has
source and target tier `cold` (the move is not skipped). -/
theorem C7_cold_demotion (db : Store) :
    (moveFilesDown db "cold").length =
      min 10 (db.filter (fun e => e.2.tier == "cold")).length ∧
    ∀ t ∈ moveFilesDown db "cold",
      t.source_tier = "cold" ∧ t.target_tier = "cold" ∧ t.retries = 0 := by
  constructor
  · unfold moveFilesDown
    rw [List.length_map, List.length_take]
  · intro t ht
    obtain ⟨e, _, rfl⟩ := mem_moveFilesDown _ _ _ ht
    exact ⟨rfl, rfl, rfl⟩

/-- C7 witness: the amended statement at the one-record cold store. -/
theorem C7_cold_demotion_witness :
    (moveFilesDown exC7db "cold").length =
      min 10 (exC7db.filter (fun e => e.2.tier == "cold")).length ∧
    (queueFileMove ["cold", "x"] "cold" "cold").source_tier = "cold" ∧
    (queueFileMove ["cold", "x"] "cold" "cold").target_tier = "cold" := by
  obtain ⟨h1, h2⟩ := C7_cold_demotion exC7db
  have h3 := h2 (queueFileMove ["cold", "x"] "cold" "cold") (by decide)
  exact ⟨h1, h3.1, h3.2.1⟩

/-! ### Claim C5 - mover store update on success -/

/-- A cold record as the scan stores it, under the tier-prefixed key. -/
def exC5rec : FileMetadata := ⟨7, 2, 42, "cold", none⟩

def exC5db : Store := [(["cold", "a"], exC5rec)]

/-- A promotion task for `/mnt/merged/cold/a`, cold to hot. -/
def exC5task : FileMoveInfo := ⟨["mnt", "merged", "cold", "a"], "cold", "hot", 0⟩

/-- The same record keyed the way `move_file` looks it up: by the
relative path with the source-tier component stripped. -/
def exC5db2 : Store := [(["a"], exC5rec)]

/-- C5 counterexample: on copy success for a cold-to-hot task over a
store keyed as the scan writes it (`cold/a`), `move_file` leaves the
store completely unchanged - the old key `cold/a` is NOT deleted, no key
with the `hot` prefix is inserted, and no record carries
`last_tier_move` - because it looks up the tier-stripped key `a`, which
misses, and never renames keys. -/
theorem C5_counterexample :
    moveFile false true 50 exC5db exC5task = some ⟨exC5db, none, true⟩ ∧
    dbGet exC5db ["cold", "a"] = some exC5rec ∧
    dbHasKey exC5db ["hot", "a"] = false ∧
    (exC5db.all (fun e => e.2.last_tier_move == none)) = true := by
  decide

/-- C5 (amended): when the copy reports success, `move_file` looks up
the record under the source-tier-stripped relative path; if one is
found, it reinserts it UNDER THE SAME KEY with `tier = target_tier` and
`last_tier_move = now`, preserving `access_count` and `file_size`, and
leaves the store's key set unchanged (no key is deleted and no
target-prefixed key is created); then it flushes. -/
theorem C5_move_success_update (now : Int) (db : Store) (t : FileMoveInfo)
    (rel : PathKey) (fi : FileMetadata)
    (hrel : stripLead (mergedRoot ++ [t.source_tier]) t.src = some rel)
    (hget : dbGet db rel = some fi) :
    moveFile false true now db t =
      some ⟨dbInsert db rel
              { fi with tier := t.target_tier, last_tier_move := some now },
            none, true⟩ ∧
    dbGet (dbInsert db rel
        { fi with tier := t.target_tier, last_tier_move := some now }) rel =
      some { fi with tier := t.target_tier, last_tier_move := some now } ∧
    ({ fi with tier := t.target_tier,
               last_tier_move := some now } : FileMetadata).access_count =
      fi.access_count ∧
    ({ fi with tier := t.target_tier,
               last_tier_move := some now } : FileMetadata).file_size =
      fi.file_size ∧
    (∀ k, dbHasKey (dbInsert db rel
        { fi with tier := t.target_tier, last_tier_move := some now }) k = true
      ↔ dbHasKey db k = true) := by
  refine ⟨?_, dbGet_insert_self _ _ _, rfl, rfl, ?_⟩
  · unfold moveFile
    rw [hrel]
    simp [rsyncRun, hget]
  · intro k
    rw [dbHasKey_insert_iff]
    constructor
    · rintro (h | rfl)
      · exact h
      · exact dbHasKey_of_get _ _ _ hget
    · exact Or.inl

/-- C5 witness: the amended theorem at the store keyed the way
`move_file` reads it. -/
theorem C5_move_success_update_witness :
    moveFile false true 50 exC5db2 exC5task =
      some ⟨[(["a"], ⟨7, 2, 42, "hot", some 50⟩)], none, true⟩ ∧
    dbGet [(["a"], (⟨7, 2, 42, "hot", some 50⟩ : FileMetadata))] ["a"] =
      some ⟨7, 2, 42, "hot", some 50⟩ := by
  have h := C5_move_success_update 50 exC5db2 exC5task ["a"] exC5rec
    (by decide) (by decide)
  exact ⟨h.1.trans (by decide), h.2.1.trans (by decide)⟩

/-! ### Claim C6 - Phase A refresh -/

def exC6rec : FileMetadata := ⟨100, 3, 5, "hot", none⟩

def exC6db : Store := [(["hot", "a"], exC6rec)]

/-- C6 counterexample: a record stores `last_access_time = 100` and the
file is observed with access time 50; after the Phase A update the
record holds 50, the observed value, not the maximum 100: the code
assigns `file_info.last_access_time = atime` unconditionally. -/
theorem C6_counterexample :
    (dbGet (updateFileMetadataEntry exC6db "hot" ["a"] 50 5) ["hot", "a"]).map
        (fun r => r.last_access_time) = some 50 ∧
    max exC6rec.last_access_time (50 : Int) = 100 ∧
    (50 : Int) ≠ 100 := by
  decide

/-- C6 (amended): during Scan Phase A, for an observed file with an
existing record, `last_access_time` is set to the OBSERVED access time
(not the maximum of stored and observed, so it can decrease),
`access_count` is incremented by exactly 1, and `file_size` and `tier`
take the observed values; for a file with no record, a new record is
inserted with `access_count = 1`; other keys are untouched. -/
theorem C6_refresh_update (db : Store) (tier : String) (comps : PathKey)
    (atime : Int) (size : Nat) :
    (∀ fi, dbGet db (tier :: comps) = some fi →
       dbGet (updateFileMetadataEntry db tier comps atime size)
           (tier :: comps) =
         some { fi with last_access_time := atime,
                        access_count := fi.access_count + 1,
                        file_size := size, tier := tier }) ∧
    (dbGet db (tier :: comps) = none →
       dbGet (updateFileMetadataEntry db tier comps atime size)
           (tier :: comps) =
         some ⟨atime, 1, size, tier, none⟩) ∧
    (∀ k, k ≠ tier :: comps →
       dbGet (updateFileMetadataEntry db tier comps atime size) k =
         dbGet db k) := by
  refine ⟨?_, ?_, ?_⟩
  · intro fi h
    unfold updateFileMetadataEntry
    rw [h]
    exact dbGet_insert_self _ _ _
  · intro h
    unfold updateFileMetadataEntry
    rw [h]
    exact dbGet_insert_self _ _ _
  · intro k hk
    unfold updateFileMetadataEntry
    cases hget : dbGet db (tier :: comps) <;>
      exact dbGet_insert_ne _ _ _ _ hk

/-- C6 witness: the update and insert branches at concrete records. -/
theorem C6_refresh_update_witness :
    dbGet (updateFileMetadataEntry exC6db "hot" ["a"] 50 5) ["hot", "a"] =
      some ⟨50, 4, 5, "hot", none⟩ ∧
    dbGet (updateFileMetadataEntry exC6db "warm" ["b"] 9 1) ["warm", "b"] =
      some ⟨9, 1, 1, "warm", none⟩ := by
  have h1 := (C6_refresh_update exC6db "hot" ["a"] 50 5).1 exC6rec (by decide)
  have h2 := (C6_refresh_update exC6db "warm" ["b"] 9 1).2.1 (by decide)
  exact ⟨h1.trans (by decide), h2⟩

/-! ### Claim C9 - dry run -/

/-- C9: with `dryrun = true` the copy primitive reports success without
spawning a child process (`rsyncRun true o = (true, false)` for any
child outcome `o`), and `move_file` produces exactly the store and retry
behavior of a successful real copy, with `spawned = false`. -/
theorem C9_dryrun (o : Bool) (now : Int) (db : Store) (t : FileMoveInfo) :
    rsyncRun true o = (true, false) ∧
    moveFile true o now db t =
      (moveFile false true now db t).map
        (fun out => ⟨out.db, out.retry, false⟩) := by
  refine ⟨rfl, ?_⟩
  cases hs : stripLead (mergedRoot ++ [t.source_tier]) t.src with
  | none =>
    unfold moveFile
    rw [hs]
    rfl
  | some rel =>
    unfold moveFile
    rw [hs]
    cases hg : dbGet db rel with
    | none => simp [rsyncRun, hg]
    | some fi => simp [rsyncRun, hg]

/-! ### Claim C10 - success with no record -/

/-- C10: when the copy succeeds for a task whose stripped relative path
has no record, `move_file` completes as a success: the store is returned
unchanged, nothing is forwarded to the retry queue, and no record is
created. -/
theorem C10_missing_record (now : Int) (db : Store) (t : FileMoveInfo)
    (rel : PathKey)
    (hrel : stripLead (mergedRoot ++ [t.source_tier]) t.src = some rel)
    (hget : dbGet db rel = none) :
    moveFile false true now db t = some ⟨db, none, true⟩ := by
  unfold moveFile
  rw [hrel]
  simp [rsyncRun, hget]

/-- C10 witness: the scan-keyed store misses the stripped key `a`, and
the successful move leaves it untouched. -/
theorem C10_missing_record_witness :
    moveFile false true 50 exC5db exC5task = some ⟨exC5db, none, true⟩ := by
  exact C10_missing_record 50 exC5db exC5task ["a"] (by decide) (by decide)

/-! ### Claim C8 - reconciler convergence -/

theorem hasKey_forwardOne (db : Store) (f : FSFile) (k : PathKey) :
    dbHasKey (reconcileForwardOne db f) k = true ↔
      (dbHasKey db k = true ∨ k = f.key) := by
  unfold reconcileForwardOne
  cases hg : dbGet db f.key with
  | none => exact dbHasKey_insert_iff db f.key k _
  | some fi =>
    have hk := dbHasKey_of_get db f.key fi hg
    cases htb : fi.tier != f.tier with
    | true =>
      simp only [htb, if_true]
      exact dbHasKey_insert_iff db f.key k _
    | false =>
      simp only [htb, Bool.false_eq_true, if_false]
      constructor
      · exact Or.inl
      · rintro (h | rfl)
        · exact h
        · exact hk

theorem hasKey_foldl_forward (l : List FSFile) (db : Store) (k : PathKey) :
    dbHasKey (l.foldl reconcileForwardOne db) k = true ↔
      (dbHasKey db k = true ∨ ∃ f ∈ l, k = f.key) := by
  induction l generalizing db with
  | nil => simp
  | cons f l ih =>
    rw [List.foldl_cons, ih, hasKey_forwardOne]
    constructor
    · rintro ((h | rfl) | ⟨g, hg, rfl⟩)
      · exact Or.inl h
      · exact Or.inr ⟨f, List.mem_cons_self f l, rfl⟩
      · exact Or.inr ⟨g, List.mem_cons_of_mem f hg, rfl⟩
    · rintro (h | ⟨g, hg, rfl⟩)
      · exact Or.inl (Or.inl h)
      · rcases List.mem_cons.1 hg with rfl | hg2
        · exact Or.inl (Or.inr rfl)
        · exact Or.inr ⟨g, hg2, rfl⟩

theorem mem_forwardFiles (fs : List FSFile) (f : FSFile) :
    f ∈ forwardFiles fs ↔
      (f ∈ fs ∧ f.tier ∈ tiersL ∧ f.comps.length = 1) := by
  unfold forwardFiles
  rw [List.mem_flatMap]
  constructor
  · rintro ⟨tier, htl, hf⟩
    rw [List.mem_filter, Bool.and_eq_true, beq_iff_eq, beq_iff_eq] at hf
    obtain ⟨hmem, heq, hlen⟩ := hf
    exact ⟨hmem, heq ▸ htl, hlen⟩
  · rintro ⟨hmem, htl, hlen⟩
    refine ⟨f.tier, htl, List.mem_filter.2 ⟨hmem, ?_⟩⟩
    rw [Bool.and_eq_true, beq_iff_eq, beq_iff_eq]
    exact ⟨rfl, hlen⟩

/-- A filesystem with one file in a subdirectory of the hot root. -/
def exC8fs : List FSFile := [⟨"hot", ["sub", "f"], 0, 1⟩]

/-- A filesystem with one top-level hot file. -/
def exC8fs2 : List FSFile := [⟨"hot", ["a"], 0, 1⟩]

/-- A store holding one stale record whose backing file is gone. -/
def exC8stale : Store := [(["warm", "x"], ⟨0, 1, 1, "warm", none⟩)]

/-- C8 counterexample: a regular file in a subdirectory
(`hot/sub/f`) exists on disk, yet after a full Reconciler pass over an
empty store the store is still empty - `fs::read_dir` is not recursive,
so the forward sweep never sees files below the tier root's top level,
and the claimed equality of key set and file set fails. -/
theorem C8_counterexample :
    (exC8fs.any (fun f => f.key == ["hot", "sub", "f"])) = true ∧
    reconcilerPass exC8fs [] = [] ∧
    dbHasKey (reconcilerPass exC8fs []) ["hot", "sub", "f"] = false := by
  decide

/-- C8 (amended): after a single Reconciler pass over a quiet
filesystem whose regular files all sit directly at a tier root (one
path component below it) with valid tier names, and whose store holds no
record whose key names a directory or other non-file path that exists on
disk, the store's key set equals the file set: every existing file has a
record and every record whose backing file is absent has been deleted.
(Files in subdirectories are not covered: the forward sweep's
`fs::read_dir` is non-recursive, as the counterexample shows.) -/
theorem C8_reconciler (fs : List FSFile) (db : Store)
    (htier : ∀ f ∈ fs, f.tier ∈ tiersL)
    (htop : ∀ f ∈ fs, f.comps.length = 1)
    (hfile : ∀ e ∈ db, fsExists fs e.1 = true → ∃ f ∈ fs, f.key = e.1) :
    ∀ k, dbHasKey (reconcilerPass fs db) k = true ↔
      ∃ f ∈ fs, f.key = k := by
  intro k
  unfold reconcilerPass
  rw [dbHasKey_filter_iff, hasKey_foldl_forward]
  constructor
  · rintro ⟨hor, hex⟩
    rcases hor with hdb | ⟨g, hgf, rfl⟩
    · obtain ⟨e, he, hk⟩ := (dbHasKey_true_iff _ _).1 hdb
      obtain ⟨f, hf, hfk⟩ := hfile e he (by rw [hk]; exact hex)
      exact ⟨f, hf, by rw [hfk, hk]⟩
    · obtain ⟨hg, _, _⟩ := (mem_forwardFiles fs g).1 hgf
      exact ⟨g, hg, rfl⟩
  · rintro ⟨f, hf, rfl⟩
    refine ⟨Or.inr ⟨f, (mem_forwardFiles fs f).2 ⟨hf, htier f hf, htop f hf⟩,
      rfl⟩, ?_⟩
    unfold fsExists
    rw [List.any_eq_true]
    exact ⟨f, hf, keyUnder_refl f.key⟩

/-- C8 witness: over a one-file filesystem and a store with one stale
record, the pass keeps exactly the file's key and drops the stale
key. -/
theorem C8_reconciler_witness :
    (dbHasKey (reconcilerPass exC8fs2 exC8stale) ["hot", "a"] = true ↔
      ∃ f ∈ exC8fs2, f.key = ["hot", "a"]) ∧
    (dbHasKey (reconcilerPass exC8fs2 exC8stale) ["warm", "x"] = true ↔
      ∃ f ∈ exC8fs2, f.key = ["warm", "x"]) := by
  have h := C8_reconciler exC8fs2 exC8stale (by decide) (by decide)
    (by decide)
  exact ⟨h ["hot", "a"], h ["warm", "x"]⟩

end DM
